import Mathlib

/-!
Verification of the docktor remote build-and-scan pipeline.

The definitions below are a shallow embedding of the Go sources:
  * namespace `scanner` embeds the `scanner` package (severity ranking,
    `FilterBySeverity`, report structures);
  * namespace `gcp` embeds `internal/gcp/client.go` (result parsing and
    flattening, raw-file persistence, HTML rendering, the build poll loop,
    context archiving and its exclusion predicate);
  * namespace `cmd` embeds the tail of the `scan` command
    (`cmd/lint.go`, scanCmd.RunE) after a successful build.

Remote services and the local filesystem are modelled by explicit data:
the object store as an `Option` of the stored content, JSON decoding as an
abstract `parse` function passed in, file writes as an explicit list of
write events in chronological order.  Local filesystem operations are
modelled as succeeding (the claims under study do not concern local IO
failures).
-/

namespace scanner

/-- Go: `type Severity string` (src/unnamed/part_002). -/
abbrev Severity := String

/-- One vulnerability record of the `scanner` package (src/unnamed/part_002). -/
structure Vulnerability where
  ID : String
  Title : String
  Description : String
  Severity : Severity
  Package : String
  Version : String
  FixedIn : String
  URL : String
deriving DecidableEq, Repr

/-- A scan report of the `scanner` package (src/unnamed/part_002). -/
structure ScanReport where
  ImageName : String
  ScanTime : String
  Vulnerabilities : List Vulnerability
deriving DecidableEq, Repr

/-- The `severityOrder` map of `FilterBySeverity` (src/unnamed/part_002,
lines 182-188).  A Go map lookup of an absent key yields the zero value,
so every string other than the five named constants gets rank 0. -/
def severityOrder (s : Severity) : Nat :=
  if s = "CRITICAL" then 4
  else if s = "HIGH" then 3
  else if s = "MEDIUM" then 2
  else if s = "LOW" then 1
  else 0

/-- `func (r *ScanReport) FilterBySeverity(minSeverity Severity) *ScanReport`
(src/unnamed/part_002, lines 175-199): keeps the vulnerabilities whose rank
is at least the rank of `minSeverity`, in input order, copying the image
name and scan time. -/
def FilterBySeverity (r : ScanReport) (minSeverity : Severity) : ScanReport :=
  let minSeverityLevel := severityOrder minSeverity
  { ImageName := r.ImageName
    ScanTime := r.ScanTime
    Vulnerabilities :=
      r.Vulnerabilities.filter (fun v => minSeverityLevel ≤ severityOrder v.Severity) }

/-- Sample data for witnesses. -/
def vulnHighSample : Vulnerability :=
  { ID := "CVE-1", Title := "t", Description := "d", Severity := "HIGH",
    Package := "pkg", Version := "1.0", FixedIn := "1.1", URL := "" }

/-- Sample report for witnesses. -/
def reportSample : ScanReport :=
  { ImageName := "img", ScanTime := "now", Vulnerabilities := [vulnHighSample] }

/-- Sample vulnerability with a severity outside the five constants. -/
def vulnModerateSample : Vulnerability :=
  { ID := "CVE-2", Title := "t2", Description := "d2", Severity := "MODERATE",
    Package := "pkg2", Version := "2.0", FixedIn := "", URL := "" }

/-- Sample report holding only `vulnModerateSample`. -/
def reportModerateSample : ScanReport :=
  { ImageName := "img2", ScanTime := "later", Vulnerabilities := [vulnModerateSample] }

end scanner

namespace scanner

/-- C1: for every report and minimum severity, `FilterBySeverity` returns a
report whose vulnerability list is a sublist (subsequence, order preserved)
of the input, every retained vulnerability has severity rank at least the
threshold's rank, and the ranks are the fixed order CRITICAL(4) > HIGH(3) >
MEDIUM(2) > LOW(1) > UNKNOWN(0). -/
theorem filterBySeverity_subsequence (r : ScanReport) (m : Severity) :
    List.Sublist (FilterBySeverity r m).Vulnerabilities r.Vulnerabilities
    ∧ (∀ v, v ∈ (FilterBySeverity r m).Vulnerabilities →
        severityOrder m ≤ severityOrder v.Severity)
    ∧ severityOrder "CRITICAL" = 4 ∧ severityOrder "HIGH" = 3
    ∧ severityOrder "MEDIUM" = 2 ∧ severityOrder "LOW" = 1
    ∧ severityOrder "UNKNOWN" = 0 := by
  refine ⟨List.filter_sublist _, ?_, by decide, by decide, by decide, by decide, by decide⟩
  intro v hv
  simp only [FilterBySeverity, List.mem_filter, decide_eq_true_eq] at hv
  exact hv.2

/-- C1 witness: instantiation of `filterBySeverity_subsequence` at a
concrete report, threshold and retained vulnerability. -/
theorem filterBySeverity_subsequence_witness :
    severityOrder "MEDIUM" ≤ severityOrder vulnHighSample.Severity :=
  (filterBySeverity_subsequence reportSample "MEDIUM").2.1 vulnHighSample (by decide)

/-- C10: a severity string outside the five named constants has rank 0 (the
map's default value); filtering at such a threshold keeps every
vulnerability unchanged; and a vulnerability of unrecognized severity is
retained exactly when the threshold's rank is 0. -/
theorem filterBySeverity_default_rank (s : Severity)
    (h1 : s ≠ "CRITICAL") (h2 : s ≠ "HIGH") (h3 : s ≠ "MEDIUM")
    (h4 : s ≠ "LOW") (h5 : s ≠ "UNKNOWN") :
    severityOrder s = 0
    ∧ (∀ r : ScanReport, (FilterBySeverity r s).Vulnerabilities = r.Vulnerabilities)
    ∧ (∀ (r : ScanReport) (m : Severity) (v : Vulnerability),
        v.Severity = s → v ∈ r.Vulnerabilities →
        (v ∈ (FilterBySeverity r m).Vulnerabilities ↔ severityOrder m = 0)) := by
  have hs : severityOrder s = 0 := by
    simp [severityOrder, h1, h2, h3, h4]
  refine ⟨hs, ?_, ?_⟩
  · intro r
    simp [FilterBySeverity, hs, List.filter_eq_self]
  · intro r m v hsev hmem
    simp only [FilterBySeverity, List.mem_filter, decide_eq_true_eq, hmem, true_and,
      hsev, hs, Nat.le_zero]

/-- C10 witness: instantiation of `filterBySeverity_default_rank` at the
unrecognized severity string MODERATE, a concrete report and thresholds. -/
theorem filterBySeverity_default_rank_witness :
    severityOrder "MODERATE" = 0
    ∧ (FilterBySeverity reportModerateSample "MODERATE").Vulnerabilities =
        reportModerateSample.Vulnerabilities
    ∧ (vulnModerateSample ∈ (FilterBySeverity reportModerateSample "HIGH").Vulnerabilities ↔
        severityOrder "HIGH" = 0) := by
  have h := filterBySeverity_default_rank "MODERATE"
    (by decide) (by decide) (by decide) (by decide) (by decide)
  exact ⟨h.1, h.2.1 reportModerateSample,
    h.2.2 reportModerateSample "HIGH" vulnModerateSample rfl (by decide)⟩

end scanner

namespace gcp

/-- One vulnerability record of the gcp client's parsed scan results
(src/internal/gcp/client.go, lines 44-52 and 280-291; the anonymous JSON
struct and the package's `Vulnerability` have exactly these fields and the
conversion copies them unchanged). -/
structure Vulnerability where
  VulnerabilityID : String
  PkgName : String
  InstalledVersion : String
  FixedVersion : String
  Severity : String
  Title : String
  Description : String
deriving DecidableEq, Repr

/-- One per-target result group of the Trivy artifact
(src/internal/gcp/client.go, lines 279-291: `Results []struct{ Vulnerabilities [...] }`). -/
structure ResultGroup where
  Vulnerabilities : List Vulnerability
deriving DecidableEq, Repr

/-- The decoded Trivy artifact (src/internal/gcp/client.go, lines 279-291). -/
structure TrivyResults where
  Results : List ResultGroup
deriving DecidableEq, Repr

/-- The nested conversion loop of `getScanResults`
(src/internal/gcp/client.go, lines 302-314): for each group in order, append
each of its vulnerabilities in order to the accumulator that started empty. -/
def flattenResults (results : TrivyResults) : List Vulnerability :=
  results.Results.foldl (fun acc g => acc ++ g.Vulnerabilities) []

/-- Accumulator-generalised description of the conversion loop. -/
theorem foldl_append_eq (l : List Vulnerability) (gs : List ResultGroup) :
    gs.foldl (fun acc g => acc ++ g.Vulnerabilities) l =
      l ++ (gs.map ResultGroup.Vulnerabilities).join := by
  induction gs generalizing l with
  | nil => simp
  | cons g gs ih => simp [ih, List.append_assoc]

/-- The severity display order of the HTML report
(src/internal/gcp/client.go, line 406). -/
def severityDisplayOrder : List String := ["CRITICAL", "HIGH", "MEDIUM", "LOW"]

/-- The `vulnsBySeverity` grouping map (src/internal/gcp/client.go,
lines 317-320): the entry for a severity is the sublist of vulnerabilities
carrying that severity, in original order; the key is present exactly when
that sublist is nonempty. -/
def vulnsBySeverity (vulns : List Vulnerability) (sev : String) : List Vulnerability :=
  vulns.filter (fun v => v.Severity = sev)

/-- One severity summary card of the HTML report
(src/internal/gcp/client.go, lines 407-415). -/
structure SeverityCard where
  severity : String
  count : Nat
deriving DecidableEq, Repr

/-- The summary-card section (src/internal/gcp/client.go, lines 405-415):
one card per severity of `severityDisplayOrder` whose grouping-map entry is
present, holding the count of that group. -/
def htmlSummaryCards (vulns : List Vulnerability) : List SeverityCard :=
  severityDisplayOrder.filterMap (fun sev =>
    if (vulnsBySeverity vulns sev).isEmpty then none
    else some ⟨sev, (vulnsBySeverity vulns sev).length⟩)

/-- One per-vulnerability detail block of the HTML report
(src/internal/gcp/client.go, lines 426-441): title, package, installed
version, a fixed-version line only when `FixedVersion` is non-empty, then
description and vulnerability ID. -/
structure DetailBlock where
  severity : String
  title : String
  pkg : String
  installedVersion : String
  fixedVersionLine : Option String
  description : String
  vulnerabilityID : String
deriving DecidableEq, Repr

/-- The detail block emitted for one vulnerability
(src/internal/gcp/client.go, lines 426-441; the fixed-version line is
emitted exactly when `vuln.FixedVersion != ""`). -/
def detailBlockOf (sev : String) (v : Vulnerability) : DetailBlock :=
  { severity := sev
    title := v.Title
    pkg := v.PkgName
    installedVersion := v.InstalledVersion
    fixedVersionLine := if v.FixedVersion = "" then none else some v.FixedVersion
    description := v.Description
    vulnerabilityID := v.VulnerabilityID }

/-- The detailed-findings section (src/internal/gcp/client.go,
lines 422-444): for each severity of `severityDisplayOrder` in order, one
block per vulnerability of that group in group order. -/
def htmlDetailBlocks (vulns : List Vulnerability) : List DetailBlock :=
  severityDisplayOrder.bind (fun sev =>
    (vulnsBySeverity vulns sev).map (detailBlockOf sev))

/-- Errors of `getScanResults` distinguished by the claims
(src/internal/gcp/client.go, lines 249-252 and 293-295). -/
inductive ScanErr where
  | notFound
  | parseFailed
deriving DecidableEq, Repr

/-- A local file write performed by `getScanResults`, in chronological
order: the verbatim raw artifact bytes (line 273-276) or the rendered HTML
report (lines 322-449). -/
inductive FileWrite where
  | raw (path : String) (content : String)
  | html (path : String) (cards : List SeverityCard) (blocks : List DetailBlock)
deriving DecidableEq, Repr

/-- `func (c *Client) getScanResults` (src/internal/gcp/client.go,
lines 243-480), over an explicit object store (`none` when the artifact
object is absent, which `obj.Attrs` reports before any read) and an
abstract JSON decoder `parse` standing for `json.Unmarshal` of the nested
Trivy structure.  Returns the chronological list of local file writes and
either the flattened vulnerability list or the error taken.  Local
filesystem operations are modelled as succeeding. -/
def getScanResults (parse : String → Option TrivyResults)
    (store : Option String) (buildID : String) :
    List FileWrite × Except ScanErr (List Vulnerability) :=
  match store with
  | none => ([], Except.error ScanErr.notFound)
  | some content =>
    let rawPath := "docktor/" ++ buildID ++ "-raw.json"
    match parse content with
    | none => ([FileWrite.raw rawPath content], Except.error ScanErr.parseFailed)
    | some results =>
      let vulns := flattenResults results
      ([FileWrite.raw rawPath content,
        FileWrite.html ("docktor/" ++ buildID ++ "-report.html")
          (htmlSummaryCards vulns) (htmlDetailBlocks vulns)],
       Except.ok vulns)

end gcp

namespace gcp

/-- Sample gcp vulnerability (HIGH). -/
def vulnA : Vulnerability :=
  { VulnerabilityID := "CVE-A", PkgName := "liba", InstalledVersion := "1",
    FixedVersion := "2", Severity := "HIGH", Title := "a", Description := "da" }

/-- Sample gcp vulnerability (LOW, no fix). -/
def vulnB : Vulnerability :=
  { VulnerabilityID := "CVE-B", PkgName := "libb", InstalledVersion := "3",
    FixedVersion := "", Severity := "LOW", Title := "b", Description := "db" }

/-- Sample gcp vulnerability (CRITICAL). -/
def vulnC : Vulnerability :=
  { VulnerabilityID := "CVE-C", PkgName := "libc", InstalledVersion := "4",
    FixedVersion := "5", Severity := "CRITICAL", Title := "c", Description := "dc" }

/-- Sample gcp vulnerability with severity UNKNOWN. -/
def vulnUnknownSample : Vulnerability :=
  { VulnerabilityID := "CVE-U", PkgName := "libu", InstalledVersion := "9",
    FixedVersion := "10", Severity := "UNKNOWN", Title := "u", Description := "du" }

/-- Sample decoded artifact with two result groups. -/
def sampleResults : TrivyResults := ⟨[⟨[vulnA, vulnB]⟩, ⟨[vulnC]⟩]⟩

/-- C2: parsing flattens the nested per-target groups into one sequence,
preserving order within each group and group order (the conversion loop
equals the concatenation of the groups); in particular the artifact
`[{Vulnerabilities:[A,B]}, {Vulnerabilities:[C]}]` yields `[A,B,C]`; and a
successful `getScanResults` returns exactly this flattening of whatever the
decoder produced. -/
theorem parse_flattens_groups (gs : List ResultGroup) (A B C : Vulnerability) :
    flattenResults ⟨gs⟩ = (gs.map ResultGroup.Vulnerabilities).join
    ∧ flattenResults ⟨[⟨[A, B]⟩, ⟨[C]⟩]⟩ = [A, B, C]
    ∧ (∀ (parse : String → Option TrivyResults) (buildID content : String)
        (results : TrivyResults), parse content = some results →
        (getScanResults parse (some content) buildID).2 =
          Except.ok (flattenResults results)) := by
  refine ⟨foldl_append_eq [] gs, rfl, ?_⟩
  intro parse buildID content results h
  simp [getScanResults, h]

/-- C2 witness: instantiation of `parse_flattens_groups` at a concrete
decoder, artifact content and build ID. -/
theorem parse_flattens_groups_witness :
    (getScanResults (fun _ => some sampleResults) (some "artifact") "docktor-1").2 =
      Except.ok (flattenResults sampleResults) :=
  (parse_flattens_groups [] vulnA vulnB vulnC).2.2
    (fun _ => some sampleResults) "docktor-1" "artifact" sampleResults rfl

/-- C5: retrieval of an absent artifact object fails with the not-found
error; an object whose content the decoder rejects fails with the parse
error; the two errors are distinct, and a missing key never yields the
parse error. -/
theorem retrieval_error_distinction (parse : String → Option TrivyResults)
    (buildID : String) :
    (getScanResults parse none buildID).2 = Except.error ScanErr.notFound
    ∧ (∀ content, parse content = none →
        (getScanResults parse (some content) buildID).2 =
          Except.error ScanErr.parseFailed)
    ∧ ScanErr.notFound ≠ ScanErr.parseFailed
    ∧ (∀ e, (getScanResults parse none buildID).2 = Except.error e →
        e ≠ ScanErr.parseFailed) := by
  refine ⟨rfl, ?_, by decide, ?_⟩
  · intro content h
    simp [getScanResults, h]
  · intro e he
    simp only [getScanResults, Except.error.injEq] at he
    subst he
    decide

/-- C5 witness: instantiation of `retrieval_error_distinction` at a decoder
that rejects everything and a concrete content. -/
theorem retrieval_error_distinction_witness :
    (getScanResults (fun _ => none) (some "not json") "docktor-2").2 =
      Except.error ScanErr.parseFailed :=
  (retrieval_error_distinction (fun _ => none) "docktor-2").2.1 "not json" rfl

/-- C6: for every retrieved artifact the verbatim raw bytes are the first
file written, to `docktor/{buildID}-raw.json`, whatever parsing then does;
and when parsing fails that raw file is the only write already persisted. -/
theorem raw_persisted_before_parse (parse : String → Option TrivyResults)
    (buildID content : String) :
    ((getScanResults parse (some content) buildID).1.head? =
      some (FileWrite.raw ("docktor/" ++ buildID ++ "-raw.json") content))
    ∧ (parse content = none →
        (getScanResults parse (some content) buildID).1 =
          [FileWrite.raw ("docktor/" ++ buildID ++ "-raw.json") content]) := by
  constructor
  · cases h : parse content <;> simp [getScanResults, h]
  · intro h
    simp [getScanResults, h]

/-- C6 witness: instantiation of `raw_persisted_before_parse` at a decoder
that rejects the concrete content. -/
theorem raw_persisted_before_parse_witness :
    (getScanResults (fun _ => none) (some "broken") "docktor-3").1 =
      [FileWrite.raw ("docktor/" ++ "docktor-3" ++ "-raw.json") "broken"] :=
  (raw_persisted_before_parse (fun _ => none) "docktor-3" "broken").2 rfl

end gcp

namespace gcp

/-- Blocks coming from one severity group survive the severity filter
exactly when the severities agree. -/
theorem filter_detailBlocks (s t : String) (l : List Vulnerability) :
    (l.map (detailBlockOf s)).filter (fun b => b.severity = t) =
      if s = t then l.map (detailBlockOf s) else [] := by
  induction l with
  | nil => simp
  | cons v l ih =>
    by_cases h : s = t <;> simp [detailBlockOf, h, ih]

/-- C7 counterexample: for a report holding one UNKNOWN-severity
vulnerability, the HTML detail section holds no block at all (and the
summary holds no card), so an UNKNOWN entry is NOT included in the
per-vulnerability detail section, contrary to the claim. -/
theorem html_unknown_absent_cex :
    htmlDetailBlocks [vulnUnknownSample] = []
    ∧ htmlSummaryCards [vulnUnknownSample] = [] := by
  decide

/-- C7 amended: the HTML rendering groups entries by severity in the fixed
display order CRITICAL, HIGH, MEDIUM, LOW with one summary card per present
severity holding its count, and the detail blocks for each displayed
severity are exactly that severity's group in source order with a
fixed-version line exactly when the fixed version is non-empty;
UNKNOWN-severity entries appear neither in the summary cards nor in the
detail section. -/
theorem html_render_amended (vulns : List Vulnerability) :
    (∀ c ∈ htmlSummaryCards vulns,
        c.severity ∈ severityDisplayOrder
        ∧ c.count = (vulnsBySeverity vulns c.severity).length
        ∧ c.severity ≠ "UNKNOWN")
    ∧ (∀ sev ∈ severityDisplayOrder,
        (vulnsBySeverity vulns sev ≠ [] ↔
          ∃ c ∈ htmlSummaryCards vulns, c.severity = sev))
    ∧ (∀ sev ∈ severityDisplayOrder,
        (htmlDetailBlocks vulns).filter (fun b => b.severity = sev) =
          (vulnsBySeverity vulns sev).map (detailBlockOf sev))
    ∧ (∀ b ∈ htmlDetailBlocks vulns, b.severity ≠ "UNKNOWN")
    ∧ (∀ (sev : String) (v : Vulnerability),
        ((detailBlockOf sev v).fixedVersionLine = none ↔ v.FixedVersion = "")) := by
  refine ⟨?_, ?_, ?_, ?_, ?_⟩
  · intro c hc
    rw [htmlSummaryCards, List.mem_filterMap] at hc
    obtain ⟨sev, hsev, hf⟩ := hc
    cases he : (vulnsBySeverity vulns sev).isEmpty <;> simp [he] at hf
    subst hf
    refine ⟨hsev, rfl, ?_⟩
    simp only [severityDisplayOrder, List.mem_cons, List.not_mem_nil, or_false] at hsev
    rcases hsev with rfl | rfl | rfl | rfl <;> simp
  · intro sev hsev
    constructor
    · intro hne
      refine ⟨⟨sev, (vulnsBySeverity vulns sev).length⟩, ?_, rfl⟩
      rw [htmlSummaryCards, List.mem_filterMap]
      refine ⟨sev, hsev, ?_⟩
      simp [List.isEmpty_iff, hne]
    · rintro ⟨c, hc, hcs⟩
      rw [htmlSummaryCards, List.mem_filterMap] at hc
      obtain ⟨s2, _, hf⟩ := hc
      cases he : (vulnsBySeverity vulns s2).isEmpty <;> simp [he] at hf
      have hs2 : s2 = sev := by
        have := congrArg SeverityCard.severity hf
        simpa [hcs] using this
      subst hs2
      intro hnil
      rw [vulnsBySeverity] at he hnil
      rw [hnil] at he
      simp at he
  · intro sev hsev
    simp only [severityDisplayOrder, List.mem_cons, List.not_mem_nil, or_false] at hsev
    rcases hsev with rfl | rfl | rfl | rfl <;>
      simp [htmlDetailBlocks, severityDisplayOrder, List.filter_append, filter_detailBlocks]
  · intro b hb
    rw [htmlDetailBlocks, List.mem_bind] at hb
    obtain ⟨sev, hsev, hmem⟩ := hb
    obtain ⟨v, _, rfl⟩ := List.mem_map.mp hmem
    simp only [severityDisplayOrder, List.mem_cons, List.not_mem_nil, or_false] at hsev
    rcases hsev with rfl | rfl | rfl | rfl <;> simp [detailBlockOf]
  · intro sev v
    by_cases h : v.FixedVersion = "" <;> simp [detailBlockOf, h]

/-- C7 witness: instantiation of `html_render_amended` at a concrete report
holding a HIGH and an UNKNOWN vulnerability. -/
theorem html_render_amended_witness :
    ((htmlDetailBlocks [vulnA, vulnUnknownSample]).filter (fun b => b.severity = "HIGH") =
      (vulnsBySeverity [vulnA, vulnUnknownSample] "HIGH").map (detailBlockOf "HIGH"))
    ∧ ((detailBlockOf "HIGH" vulnA).fixedVersionLine = none ↔ vulnA.FixedVersion = "") :=
  ⟨(html_render_amended [vulnA, vulnUnknownSample]).2.2.1 "HIGH" (by decide),
   (html_render_amended [vulnA, vulnUnknownSample]).2.2.2.2 "HIGH" vulnA⟩

end gcp

namespace gcp

/-- One observable event of the wait loop of `BuildAndScanImage`
(src/internal/gcp/client.go, lines 185-241): a status sample
(`Operations.Get`, reporting `op.Done`) or a `time.Sleep` of a number of
seconds. -/
inductive PollEvent where
  | poll (done : Bool)
  | sleep (seconds : Nat)
deriving DecidableEq, Repr

/-- The job lifecycle states named by the specification's poller state
machine.  The code's phases map onto them: `Submitted` right after
`Builds.Create`, `Running` after observing a not-done status response,
`Succeeded` on the done response (followed by result retrieval).  `Failed`
and `TimedOut` are part of the taxonomy; whether the loop can ever produce
them is settled by the theorems. -/
inductive PollState where
  | Submitted
  | Running
  | Succeeded
  | Failed
  | TimedOut
deriving DecidableEq, Repr

/-- Event trace of the wait loop, sampling from the `i`-th status response
on, allowed at most `fuel` samples in the model (the loop itself has no
bound; `status j` is the value of `op.Done` on the `j`-th sample).  Each
iteration polls; on done it returns with no further event, otherwise it
sleeps 5 seconds and repeats. -/
def pollTraceAux (status : Nat → Bool) (i : Nat) : Nat → List PollEvent
  | 0 => []
  | fuel + 1 =>
    if status i then [PollEvent.poll true]
    else PollEvent.poll false :: PollEvent.sleep 5 :: pollTraceAux status (i + 1) fuel

/-- Event trace of the wait loop from its first sample. -/
def pollTrace (status : Nat → Bool) (fuel : Nat) : List PollEvent :=
  pollTraceAux status 0 fuel

/-- Index of the sample at which the wait loop returns, from sample `i` on;
`none` when it is still looping after `fuel` samples. -/
def pollResultAux (status : Nat → Bool) (i : Nat) : Nat → Option Nat
  | 0 => none
  | fuel + 1 => if status i then some i else pollResultAux status (i + 1) fuel

/-- Index of the sample at which the wait loop returns, `none` when it is
still looping after `fuel` samples. -/
def pollResult (status : Nat → Bool) (fuel : Nat) : Option Nat :=
  pollResultAux status 0 fuel

/-- States visited by the wait loop from sample `i` on. -/
def runStatesAux (status : Nat → Bool) (i : Nat) : Nat → List PollState
  | 0 => []
  | fuel + 1 =>
    if status i then [PollState.Succeeded]
    else PollState.Running :: runStatesAux status (i + 1) fuel

/-- States visited by a run of the wait loop: `Submitted` on creation, then
the states of the sampling loop. -/
def runStates (status : Nat → Bool) (fuel : Nat) : List PollState :=
  PollState.Submitted :: runStatesAux status 0 fuel

/-- Trace shape of the loop when the first done response is the `n`-th. -/
theorem pollTraceAux_eq (status : Nat → Bool) (n : Nat) :
    ∀ i fuel, (∀ j, j < n → status (i + j) = false) → status (i + n) = true →
      n < fuel →
      pollTraceAux status i fuel =
        List.join (List.replicate n [PollEvent.poll false, PollEvent.sleep 5]) ++
          [PollEvent.poll true] := by
  induction n with
  | zero =>
    intro i fuel _ hdone hfuel
    cases fuel with
    | zero => omega
    | succ m =>
      have h0 : status i = true := by simpa using hdone
      simp [pollTraceAux, h0]
  | succ n ih =>
    intro i fuel hn hdone hfuel
    cases fuel with
    | zero => omega
    | succ m =>
      have h0 : status i = false := by simpa using hn 0 (Nat.succ_pos n)
      have hn2 : ∀ j, j < n → status (i + 1 + j) = false := by
        intro j hj
        have := hn (j + 1) (by omega)
        have hidx : i + (j + 1) = i + 1 + j := by omega
        rwa [hidx] at this
      have hdone2 : status (i + 1 + n) = true := by
        have hidx : i + (n + 1) = i + 1 + n := by omega
        rwa [hidx] at hdone
      have hrec := ih (i + 1) m hn2 hdone2 (by omega)
      simp [pollTraceAux, h0, hrec, List.replicate_succ]

/-- Return-sample index of the loop when the first done response is the `n`-th. -/
theorem pollResultAux_eq (status : Nat → Bool) (n : Nat) :
    ∀ i fuel, (∀ j, j < n → status (i + j) = false) → status (i + n) = true →
      n < fuel → pollResultAux status i fuel = some (i + n) := by
  induction n with
  | zero =>
    intro i fuel _ hdone hfuel
    cases fuel with
    | zero => omega
    | succ m =>
      have h0 : status i = true := by simpa using hdone
      simp [pollResultAux, h0]
  | succ n ih =>
    intro i fuel hn hdone hfuel
    cases fuel with
    | zero => omega
    | succ m =>
      have h0 : status i = false := by simpa using hn 0 (Nat.succ_pos n)
      have hn2 : ∀ j, j < n → status (i + 1 + j) = false := by
        intro j hj
        have := hn (j + 1) (by omega)
        have hidx : i + (j + 1) = i + 1 + j := by omega
        rwa [hidx] at this
      have hdone2 : status (i + 1 + n) = true := by
        have hidx : i + (n + 1) = i + 1 + n := by omega
        rwa [hidx] at hdone
      have hrec := ih (i + 1) m hn2 hdone2 (by omega)
      have hidx : i + 1 + n = i + (n + 1) := by omega
      simp [pollResultAux, h0, hrec, hidx]

/-- Visited states of the loop when the first done response is the `n`-th. -/
theorem runStatesAux_eq (status : Nat → Bool) (n : Nat) :
    ∀ i fuel, (∀ j, j < n → status (i + j) = false) → status (i + n) = true →
      n < fuel →
      runStatesAux status i fuel =
        List.replicate n PollState.Running ++ [PollState.Succeeded] := by
  induction n with
  | zero =>
    intro i fuel _ hdone hfuel
    cases fuel with
    | zero => omega
    | succ m =>
      have h0 : status i = true := by simpa using hdone
      simp [runStatesAux, h0]
  | succ n ih =>
    intro i fuel hn hdone hfuel
    cases fuel with
    | zero => omega
    | succ m =>
      have h0 : status i = false := by simpa using hn 0 (Nat.succ_pos n)
      have hn2 : ∀ j, j < n → status (i + 1 + j) = false := by
        intro j hj
        have := hn (j + 1) (by omega)
        have hidx : i + (j + 1) = i + 1 + j := by omega
        rwa [hidx] at this
      have hdone2 : status (i + 1 + n) = true := by
        have hidx : i + (n + 1) = i + 1 + n := by omega
        rwa [hidx] at hdone
      have hrec := ih (i + 1) m hn2 hdone2 (by omega)
      simp [runStatesAux, h0, hrec, List.replicate_succ]

/-- A status stream that is never done keeps the loop looping. -/
theorem pollResultAux_none (status : Nat → Bool) (h : ∀ i, status i = false) :
    ∀ fuel i, pollResultAux status i fuel = none := by
  intro fuel
  induction fuel with
  | zero => intro i; rfl
  | succ m ih => intro i; simp [pollResultAux, h i, ih]

/-- The loop never visits TimedOut, whatever the status stream. -/
theorem timedOut_not_mem_runStatesAux (status : Nat → Bool) :
    ∀ fuel i, PollState.TimedOut ∉ runStatesAux status i fuel := by
  intro fuel
  induction fuel with
  | zero => intro i; simp [runStatesAux]
  | succ m ih =>
    intro i
    cases h : status i <;> simp [runStatesAux, h, ih]

end gcp

namespace gcp

/-- C8: the wait loop samples on a fixed 5-second interval — exactly one
5-second sleep after each non-terminal sample, never busy-polling — and on
the first done response it returns at once with no further sleep; the run
passes through Submitted, then Running for each non-terminal response, then
Succeeded. -/
theorem poller_interval_spec (status : Nat → Bool) (n fuel : Nat)
    (hn : ∀ j, j < n → status j = false) (hdone : status n = true)
    (hfuel : n < fuel) :
    pollTrace status fuel =
      List.join (List.replicate n [PollEvent.poll false, PollEvent.sleep 5]) ++
        [PollEvent.poll true]
    ∧ pollResult status fuel = some n
    ∧ runStates status fuel =
        PollState.Submitted ::
          (List.replicate n PollState.Running ++ [PollState.Succeeded]) := by
  have hn0 : ∀ j, j < n → status (0 + j) = false := by simpa using hn
  have hdone0 : status (0 + n) = true := by simpa using hdone
  refine ⟨pollTraceAux_eq status n 0 fuel hn0 hdone0 hfuel, ?_, ?_⟩
  · have := pollResultAux_eq status n 0 fuel hn0 hdone0 hfuel
    simpa [pollResult] using this
  · have := runStatesAux_eq status n 0 fuel hn0 hdone0 hfuel
    simp [runStates, this]

/-- C8 witness: instantiation of `poller_interval_spec` for a job whose
done response is the third sample (after 2 sampling intervals). -/
theorem poller_interval_spec_witness :
    pollTrace (fun i => decide (2 ≤ i)) 5 =
      [PollEvent.poll false, PollEvent.sleep 5, PollEvent.poll false,
       PollEvent.sleep 5, PollEvent.poll true]
    ∧ pollResult (fun i => decide (2 ≤ i)) 5 = some 2
    ∧ runStates (fun i => decide (2 ≤ i)) 5 =
        [PollState.Submitted, PollState.Running, PollState.Running,
         PollState.Succeeded] := by
  have h := poller_interval_spec (fun i => decide (2 ≤ i)) 2 5
    (fun j hj => by simp only [decide_eq_false_iff_not]; omega)
    (by decide) (by decide)
  simpa using h

/-- C3 counterexample: for a job that never reports a terminal outcome, the
wait loop of `BuildAndScanImage` is still sampling after four 5-second
intervals (more than 15 seconds elapsed, past the claimed bound of 10±1
seconds for a 10-second budget): it has returned no outcome and TimedOut is
never among the visited states. -/
theorem poller_never_timesOut_cex :
    pollResult (fun _ => false) 4 = none
    ∧ pollTrace (fun _ => false) 4 =
        [PollEvent.poll false, PollEvent.sleep 5, PollEvent.poll false,
         PollEvent.sleep 5, PollEvent.poll false, PollEvent.sleep 5,
         PollEvent.poll false, PollEvent.sleep 5]
    ∧ PollState.TimedOut ∉ runStates (fun _ => false) 4 := by
  refine ⟨rfl, rfl, by decide⟩

/-- C3 amended: the wait loop has no client-side budget: for a job that
never reports a terminal outcome it polls forever — after any number of
sampling intervals it has produced no outcome, and it never transitions to
TimedOut.  The only timeout attached to the job is the server-side
`Timeout: "1800s"` field of the build request, enforced remotely. -/
theorem poller_no_client_budget (status : Nat → Bool)
    (h : ∀ i, status i = false) (fuel : Nat) :
    pollResult status fuel = none
    ∧ PollState.TimedOut ∉ runStates status fuel := by
  refine ⟨pollResultAux_none status h fuel 0, ?_⟩
  simp only [runStates, List.mem_cons]
  push_neg
  exact ⟨by decide, timedOut_not_mem_runStatesAux status fuel 0⟩

/-- C3 amended witness: instantiation of `poller_no_client_budget` at the
never-done status stream and 7 samples. -/
theorem poller_no_client_budget_witness :
    pollResult (fun _ => false) 7 = none
    ∧ PollState.TimedOut ∉ runStates (fun _ => false) 7 :=
  poller_no_client_budget (fun _ => false) (fun _ => rfl) 7

end gcp

namespace cmd

/-- The build result fields scanCmd prints (src/cmd/lint.go, lines 122-126),
with times and log URL as display strings. -/
structure BuildResultInfo where
  ID : String
  Status : String
  StartTime : String
  EndTime : String
  Logs : String
deriving DecidableEq, Repr

/-- Outcome of a cobra RunE function: the lines printed, and the error
returned (`none` is a zero exit, success). -/
structure CmdResult where
  output : List String
  err : Option String
deriving DecidableEq, Repr

/-- The result lines scanCmd.RunE prints for a successful build
(src/cmd/lint.go, lines 121-126). -/
def primaryResultLines (res : BuildResultInfo) : List String :=
  ["Build completed with status: " ++ res.Status,
   "Build ID: " ++ res.ID,
   "Start time: " ++ res.StartTime,
   "End time: " ++ res.EndTime,
   "Logs: " ++ res.Logs]

/-- The cleanup step of scanCmd.RunE (src/cmd/lint.go, lines 128-131): a
failed `client.Cleanup` only prints a warning. -/
def cleanupWarnings (cleanup : Except String Unit) : List String :=
  match cleanup with
  | Except.error e => ["Warning: failed to cleanup build artifacts: " ++ e]
  | Except.ok _ => []

/-- The tail of scanCmd.RunE once `BuildAndScanImage` has succeeded
(src/cmd/lint.go, lines 121-133): print the result lines, attempt Cleanup,
downgrade its failure to a printed warning, and `return nil`. -/
def scanCmdAfterBuild (res : BuildResultInfo) (cleanup : Except String Unit) :
    CmdResult :=
  { output := primaryResultLines res ++ cleanupWarnings cleanup
    err := none }

/-- C9: for every otherwise-successful run, whatever the cleanup step does,
the command returns success (no error), the primary result lines are
printed unchanged first (never masked), and a warning is emitted exactly
when cleanup failed. -/
theorem cleanup_best_effort (res : BuildResultInfo)
    (cleanup : Except String Unit) :
    (scanCmdAfterBuild res cleanup).err = none
    ∧ (scanCmdAfterBuild res cleanup).output.take 5 = primaryResultLines res
    ∧ (cleanupWarnings cleanup = [] ↔ cleanup.isOk = true) := by
  refine ⟨rfl, rfl, ?_⟩
  cases cleanup <;> simp [cleanupWarnings, Except.isOk, Except.toBool]

end cmd

namespace gcp

/-- `pat` is a leading segment of `s` (character-level model of Go's
`strings.HasPrefix`). -/
def listStartsWith : List Char → List Char → Bool
  | _, [] => true
  | [], _ :: _ => false
  | a :: as, b :: bs => a == b && listStartsWith as bs

/-- `pat` occurs somewhere inside `s` (character-level model of Go's
`strings.Contains`). -/
def listHasSub (pat : List Char) : List Char → Bool
  | [] => listStartsWith [] pat
  | c :: rest => listStartsWith (c :: rest) pat || listHasSub pat rest

/-- Go `strings.Contains(s, sub)`. -/
def goContains (s sub : String) : Bool := listHasSub sub.data s.data

/-- Go `strings.HasSuffix(s, suf)`. -/
def goHasSuffix (s suf : String) : Bool :=
  listStartsWith s.data.reverse suf.data.reverse

/-- Go `filepath.Base` on the clean relative slash-separated paths produced
by the walk: the characters after the last slash. -/
def baseName (p : String) : String :=
  String.mk ((p.data.reverse.takeWhile (fun c => c != '/')).reverse)

/-- The `shouldExclude` closure of `createAndUploadContext`
(src/internal/gcp/client.go, lines 574-600), applied to the root-relative
path of each walked entry; `g` is the compiled gitignore matcher
(`gitignore.MatchesPath`, false everywhere when no pattern file was found),
kept abstract since it is a third-party library. -/
def shouldExclude (g : String → Bool) (path : String) : Bool :=
  let base := baseName path
  if goContains path "/node_modules/" || goHasSuffix path "/node_modules" then true
  else if listStartsWith base.data ['.'] then true
  else if base == ".git" then true
  else g path

/-- A context directory tree, children listed in walk (lexical) order. -/
inductive FsTree where
  | file (name : String)
  | dir (name : String) (children : List FsTree)
deriving Repr

/-- Relative-path concatenation for the walk. -/
def joinPath (dir name : String) : String :=
  if dir = "" then name else dir ++ "/" ++ name

/-- The `filepath.Walk` body of `createAndUploadContext`
(src/internal/gcp/client.go, lines 606-668): entries are visited in order;
an excluded file is skipped, an excluded directory is skipped together with
its whole subtree (`filepath.SkipDir`); every entry not excluded gets a tar
header (directories included), so the archive entry list is the list of
root-relative paths this produces. -/
def walkEntries (g : String → Bool) : String → List FsTree → List String
  | _, [] => []
  | dirPath, FsTree.file n :: rest =>
    (if shouldExclude g (joinPath dirPath n) then []
     else [joinPath dirPath n]) ++ walkEntries g dirPath rest
  | dirPath, FsTree.dir n children :: rest =>
    (if shouldExclude g (joinPath dirPath n) then []
     else joinPath dirPath n :: walkEntries g (joinPath dirPath n) children) ++
      walkEntries g dirPath rest

/-- Archive entry list for a context root holding the given trees (the root
itself is skipped by the walk body). -/
def archiveEntries (g : String → Bool) (root : List FsTree) : List String :=
  walkEntries g "" root

end gcp

namespace gcp

/-- C4 (evaluation at the failing input): with no gitignore patterns
loaded, the hard-coded dependency-cache exclusion misses a top-level
`node_modules`: the relative paths `node_modules` and `node_modules/app.js`
match neither the `/node_modules/` substring test nor the `/node_modules`
suffix test, so both end up in the archive entry list — while a nested
`src/node_modules` and the hidden file `.env` are excluded as described. -/
theorem archive_node_modules_bug :
    shouldExclude (fun _ => false) "node_modules" = false
    ∧ archiveEntries (fun _ => false)
        [FsTree.dir "node_modules" [FsTree.file "app.js"], FsTree.file ".env"] =
      ["node_modules", "node_modules/app.js"]
    ∧ shouldExclude (fun _ => false) "src/node_modules" = true
    ∧ shouldExclude (fun _ => false) "a/node_modules/b.js" = true
    ∧ shouldExclude (fun _ => false) ".env" = true := by
  have h1 : shouldExclude (fun _ => false) "node_modules" = false := by decide
  have h2 : shouldExclude (fun _ => false) "node_modules/app.js" = false := by decide
  have h3 : shouldExclude (fun _ => false) ".env" = true := by decide
  refine ⟨h1, ?_, by decide, by decide, h3⟩
  simp [archiveEntries, walkEntries, joinPath, h1, h2, h3]

end gcp
